import Mathlib

/-!
Verification of SolBitrage_Flash (Solana flash-loan arbitrage bot).
Shallow embedding of the Rust sources:
  src/solana_arbitrage_bot/src/profit_management/mod.rs
  src/solana_arbitrage_bot/src/flash_loan/mod.rs
  src/test_run/solana_arbitrage_bot_package/src/risk_management/mod.rs
  src/test_run/solana_arbitrage_bot_package/src/arbitrage/mod.rs

Modelling conventions:
  - Rust u64 / u8 values are naturals; arithmetic that can overflow is taken
    with an explicit modulus (release-build wrapping semantics).
  - Solana Pubkey values are abstract identifiers (naturals); none of the
    verified claims depends on the concrete byte content of an address.
  - HashMap state is an association list with HashMap insert semantics
    (replace the value when the key is present).
  - f64 arithmetic in the position-scaling code is modelled as exact rational
    arithmetic, and the Rust cast to u64 as truncation toward zero saturating
    to the interval from 0 to 2^64 - 1. Counterexamples below only use dyadic
    factors whose products are computed exactly by f64 as well.
  - System clock reads (SystemTime::now) become an explicit parameter of the
    operation that performs them.
-/

set_option autoImplicit false

namespace SolBitrage

/-- Modulus of Rust u64 arithmetic. -/
def W64 : Nat := 2 ^ 64

/-- Rust u64 wrapping addition. -/
def add64 (a b : Nat) : Nat := (a + b) % W64

/-- Rust u64 wrapping multiplication. -/
def mul64 (a b : Nat) : Nat := (a * b) % W64

/-- Rust u64 wrapping subtraction. -/
def sub64 (a b : Nat) : Nat := (a % W64 + W64 - b % W64) % W64

/-- Rust u8 wrapping addition. -/
def add8 (a b : Nat) : Nat := (a + b) % 256

/-- Solana public key, modelled as an abstract identifier. -/
abbrev Pubkey := Nat

/-- Rust cast of an f64 value to u64: truncation toward zero, saturating at
the bounds of the u64 range. The f64 value itself is modelled as an exact
rational. -/
def castU64 (q : ℚ) : Nat :=
  if q < 0 then 0 else min q.floor.toNat (W64 - 1)

/-- Association-list lookup, modelling HashMap::get. -/
def lookupA {α β : Type} [DecidableEq α] : List (α × β) → α → Option β
  | [], _ => none
  | (k, v) :: rest, a => if k = a then some v else lookupA rest a

/-- Association-list insert, modelling HashMap::insert (replaces the value
when the key is already present). -/
def insertA {α β : Type} [DecidableEq α] : List (α × β) → α → β → List (α × β)
  | [], a, b => [(a, b)]
  | (k, v) :: rest, a, b =>
      if k = a then (a, b) :: rest else (k, v) :: insertA rest a b

namespace ProfitMgmt

/-- ProfitDistributionConfig from profit_management/mod.rs. The three
percentage fields hold u8 values. -/
structure ProfitDistributionConfig where
  reinvestment_percentage : Nat
  withdrawal_percentage : Nat
  reserve_percentage : Nat
  owner_wallet : Pubkey
  min_distribution_amount : Nat
deriving Repr, DecidableEq

/-- ProfitDistributionConfig::new. The Rust validation adds the three u8
percentages with u8 arithmetic before comparing with 100. -/
def ProfitDistributionConfig.new (reinvestment withdrawal reserve : Nat)
    (owner : Pubkey) (minAmount : Nat) :
    Except String ProfitDistributionConfig :=
  if add8 (add8 reinvestment withdrawal) reserve ≠ 100 then
    .error "Profit distribution percentages must add up to 100"
  else
    .ok { reinvestment_percentage := reinvestment,
          withdrawal_percentage := withdrawal,
          reserve_percentage := reserve,
          owner_wallet := owner,
          min_distribution_amount := minAmount }

/-- TokenProfit from profit_management/mod.rs: per-token profit ledger. -/
structure TokenProfit where
  token_mint : Pubkey
  total_profit : Nat
  distributed_profit : Nat
  undistributed_profit : Nat
  successful_trades : Nat
  failed_trades : Nat
deriving Repr, DecidableEq

/-- TokenProfit::new. -/
def TokenProfit.new (mint : Pubkey) : TokenProfit :=
  { token_mint := mint, total_profit := 0, distributed_profit := 0,
    undistributed_profit := 0, successful_trades := 0, failed_trades := 0 }

/-- TokenProfit::record_profit. -/
def TokenProfit.record_profit (tp : TokenProfit) (amount : Nat) : TokenProfit :=
  { tp with total_profit := add64 tp.total_profit amount,
            undistributed_profit := add64 tp.undistributed_profit amount,
            successful_trades := add64 tp.successful_trades 1 }

/-- TokenProfit::record_failed_trade. -/
def TokenProfit.record_failed_trade (tp : TokenProfit) : TokenProfit :=
  { tp with failed_trades := add64 tp.failed_trades 1 }

/-- TokenProfit::distribute_profit: rejects an amount above the undistributed
balance before touching any field, otherwise moves the amount from
undistributed to distributed. -/
def TokenProfit.distribute_profit (tp : TokenProfit) (amount : Nat) :
    Except String (Nat × TokenProfit) :=
  if amount > tp.undistributed_profit then
    .error ("Cannot distribute " ++ Nat.repr amount ++ " - only " ++
            Nat.repr tp.undistributed_profit ++ " available")
  else
    .ok (amount,
      { tp with undistributed_profit := tp.undistributed_profit - amount,
                distributed_profit := add64 tp.distributed_profit amount })

/-- DistributionResult from profit_management/mod.rs. -/
structure DistributionResult where
  reinvested_amount : Nat
  withdrawn_amount : Nat
  reserved_amount : Nat
deriving Repr, DecidableEq

/-- ProfitManager from profit_management/mod.rs. The HashMap of token ledgers
is an association list. -/
structure ProfitManager where
  config : ProfitDistributionConfig
  token_profits : List (Pubkey × TokenProfit)
  total_sol_profit : Nat
  total_usd_profit : Nat
deriving Repr, DecidableEq

/-- Per-token split computed inside ProfitManager::distribute_profits:
reinvest and withdraw are u64 products divided by 100, the reserve is the
u64 difference that absorbs the truncation remainder. -/
def distributionParts (cfg : ProfitDistributionConfig) (amount : Nat) :
    Nat × Nat × Nat :=
  let reinvest := mul64 amount cfg.reinvestment_percentage / 100
  let withdraw := mul64 amount cfg.withdrawal_percentage / 100
  let reserve := sub64 (sub64 amount reinvest) withdraw
  (reinvest, withdraw, reserve)

/-- Loop body of ProfitManager::distribute_profits over the token ledger
list: tokens below the minimum are skipped unchanged; qualifying tokens have
their whole undistributed balance split and moved to distributed. On an error
from distribute_profit the loop stops, keeping the mutations already made. -/
def distributeGo (cfg : ProfitDistributionConfig) (acc : DistributionResult) :
    List (Pubkey × TokenProfit) →
    Except String DistributionResult × List (Pubkey × TokenProfit)
  | [] => (.ok acc, [])
  | (mint, tp) :: rest =>
    if tp.undistributed_profit < cfg.min_distribution_amount then
      let r := distributeGo cfg acc rest
      (r.1, (mint, tp) :: r.2)
    else
      let amount := tp.undistributed_profit
      let parts := distributionParts cfg amount
      match tp.distribute_profit amount with
      | .error e => (.error e, (mint, tp) :: rest)
      | .ok (_, tp') =>
        let acc' : DistributionResult :=
          { reinvested_amount := add64 acc.reinvested_amount parts.1,
            withdrawn_amount := add64 acc.withdrawn_amount parts.2.1,
            reserved_amount := add64 acc.reserved_amount parts.2.2 }
        let r := distributeGo cfg acc' rest
        (r.1, (mint, tp') :: r.2)

/-- ProfitManager::distribute_profits. The manager is threaded explicitly:
the Rust method mutates self in place. -/
def ProfitManager.distribute_profits (m : ProfitManager) :
    Except String DistributionResult × ProfitManager :=
  let r := distributeGo m.config
    { reinvested_amount := 0, withdrawn_amount := 0, reserved_amount := 0 }
    m.token_profits
  (r.1, { m with token_profits := r.2 })

/-- Repeated calls of ProfitManager::distribute_profits. -/
def iterDistribute (m : ProfitManager) : Nat → ProfitManager
  | 0 => m
  | n + 1 => (ProfitManager.distribute_profits (iterDistribute m n)).2

/-- States of a TokenProfit ledger reachable from TokenProfit::new by
record_profit (with a u64 amount), record_failed_trade, and successful
distribute_profit calls. -/
inductive TokenProfit.Reach : TokenProfit → Prop
  | new (mint : Pubkey) : Reach (TokenProfit.new mint)
  | record {tp : TokenProfit} (amount : Nat) (ha : amount < W64)
      (h : Reach tp) : Reach (tp.record_profit amount)
  | failedTrade {tp : TokenProfit} (h : Reach tp) :
      Reach tp.record_failed_trade
  | distribute {tp : TokenProfit} (amount r : Nat) (tp' : TokenProfit)
      (h : Reach tp) (hok : tp.distribute_profit amount = .ok (r, tp')) :
      Reach tp'

end ProfitMgmt

namespace FlashLoan

/-- FlashLoanError from flash_loan/mod.rs. -/
inductive FlashLoanError
  | ProviderError (msg : String)
  | TransactionError (msg : String)
  | RpcError (msg : String)
  | ParameterError (msg : String)
  | GeneralError (msg : String)
deriving Repr, DecidableEq

/-- FlashLoanProvider from flash_loan/mod.rs. -/
inductive FlashLoanProvider
  | Solend
  | FlashProtocol
  | FlashLoanMastery
  | Custom
deriving Repr, DecidableEq

/-- FlashLoanConfig from flash_loan/mod.rs. The f64 fee percentage is kept as
an exact rational; it is not used by the verified claims. -/
structure FlashLoanConfig where
  provider : FlashLoanProvider
  max_loan_amount : Nat
  fee_percentage : ℚ
  custom_provider_program_id : Option Pubkey
deriving Repr, DecidableEq

/-- AccountMeta from solana_sdk as used in flash_loan/mod.rs.
AccountMeta::new marks the account writable, AccountMeta::new_readonly does
not; the second argument of both is the signer flag. -/
structure AccountMeta where
  pubkey : Pubkey
  is_signer : Bool
  is_writable : Bool
deriving Repr, DecidableEq

/-- Instruction from solana_sdk as assembled in flash_loan/mod.rs; data holds
the raw instruction bytes. -/
structure Instruction where
  program_id : Pubkey
  accounts : List AccountMeta
  data : List Nat
deriving Repr, DecidableEq

/-- Address of the Solana system program, abstract. -/
def systemProgramId : Pubkey := 0

/-- Little-endian byte encoding of a u64 amount (u64::to_le_bytes). -/
def u64ToLeBytes (n : Nat) : List Nat :=
  [n % 256, n / 2 ^ 8 % 256, n / 2 ^ 16 % 256, n / 2 ^ 24 % 256,
   n / 2 ^ 32 % 256, n / 2 ^ 40 % 256, n / 2 ^ 48 % 256, n / 2 ^ 56 % 256]

/-- FlashLoanManager from flash_loan/mod.rs. The provider program ids are
fixed at construction from constant address strings; their concrete values do
not matter to the claims, so they are abstract identifiers here. -/
structure FlashLoanManager where
  config : FlashLoanConfig
  solend_program_id : Pubkey
  flash_protocol_program_id : Pubkey
  flash_loan_mastery_program_id : Pubkey
deriving Repr, DecidableEq

/-- The five AccountMeta entries shared by all three provider instruction
builders in flash_loan/mod.rs. -/
def loanAccounts (token_mint borrower receiver callback_program_id : Pubkey) :
    List AccountMeta :=
  [{ pubkey := borrower, is_signer := true, is_writable := true },
   { pubkey := receiver, is_signer := false, is_writable := true },
   { pubkey := token_mint, is_signer := false, is_writable := false },
   { pubkey := callback_program_id, is_signer := false, is_writable := false },
   { pubkey := systemProgramId, is_signer := false, is_writable := false }]

/-- FlashLoanManager::create_solend_flash_loan_instruction: the only provider
path that validates the requested amount against max_loan_amount. -/
def FlashLoanManager.create_solend_flash_loan_instruction
    (m : FlashLoanManager) (amount : Nat)
    (token_mint borrower receiver callback_program_id : Pubkey) :
    Except FlashLoanError Instruction :=
  if amount > m.config.max_loan_amount then
    .error (.ParameterError ("Loan amount " ++ Nat.repr amount ++
      " exceeds maximum " ++ Nat.repr m.config.max_loan_amount))
  else
    .ok { program_id := m.solend_program_id,
          accounts := loanAccounts token_mint borrower receiver callback_program_id,
          data := 12 :: u64ToLeBytes amount }

/-- FlashLoanManager::create_flash_protocol_instruction: placeholder builder
with no amount validation. -/
def FlashLoanManager.create_flash_protocol_instruction
    (m : FlashLoanManager) (amount : Nat)
    (token_mint borrower receiver callback_program_id : Pubkey) :
    Except FlashLoanError Instruction :=
  .ok { program_id := m.flash_protocol_program_id,
        accounts := loanAccounts token_mint borrower receiver callback_program_id,
        data := 1 :: u64ToLeBytes amount }

/-- FlashLoanManager::create_flash_loan_mastery_instruction: placeholder
builder with no amount validation. -/
def FlashLoanManager.create_flash_loan_mastery_instruction
    (m : FlashLoanManager) (amount : Nat)
    (token_mint borrower receiver callback_program_id : Pubkey) :
    Except FlashLoanError Instruction :=
  .ok { program_id := m.flash_loan_mastery_program_id,
        accounts := loanAccounts token_mint borrower receiver callback_program_id,
        data := 5 :: u64ToLeBytes amount }

/-- FlashLoanManager::create_flash_loan_instruction: dispatch on the
configured provider. -/
def FlashLoanManager.create_flash_loan_instruction
    (m : FlashLoanManager) (amount : Nat)
    (token_mint borrower receiver callback_program_id : Pubkey) :
    Except FlashLoanError Instruction :=
  match m.config.provider with
  | .Solend =>
      m.create_solend_flash_loan_instruction amount token_mint borrower
        receiver callback_program_id
  | .FlashProtocol =>
      m.create_flash_protocol_instruction amount token_mint borrower
        receiver callback_program_id
  | .FlashLoanMastery =>
      m.create_flash_loan_mastery_instruction amount token_mint borrower
        receiver callback_program_id
  | .Custom =>
      .error (.ProviderError "Custom provider not implemented")

end FlashLoan

namespace RiskMgmt

/-- Token pair used as the per-pair key in risk_management/mod.rs. -/
abbrev TokenPair := Pubkey × Pubkey

/-- RiskLevel from risk_management/mod.rs. -/
inductive RiskLevel
  | Conservative
  | Moderate
  | Aggressive
  | Custom
deriving Repr, DecidableEq

/-- PositionScalingConfig from risk_management/mod.rs. The f64 factors are
exact rationals. -/
structure PositionScalingConfig where
  base_position_size : Nat
  max_position_size : Nat
  growth_factor : ℚ
  reduction_factor : ℚ
  max_daily_growth : ℚ
  risk_level : RiskLevel
  use_adaptive_sizing : Bool
  use_profit_based_scaling : Bool
deriving Repr, DecidableEq

/-- PositionScalingConfig::new: preset values per risk level. -/
def PositionScalingConfig.new (risk : RiskLevel) : PositionScalingConfig :=
  match risk with
  | .Conservative =>
      { base_position_size := 100000000, max_position_size := 500000000,
        growth_factor := 105 / 100, reduction_factor := 9 / 10,
        max_daily_growth := 15 / 10, risk_level := risk,
        use_adaptive_sizing := true, use_profit_based_scaling := true }
  | .Moderate =>
      { base_position_size := 250000000, max_position_size := 1000000000,
        growth_factor := 11 / 10, reduction_factor := 85 / 100,
        max_daily_growth := 2, risk_level := risk,
        use_adaptive_sizing := true, use_profit_based_scaling := true }
  | .Aggressive =>
      { base_position_size := 500000000, max_position_size := 2000000000,
        growth_factor := 12 / 10, reduction_factor := 8 / 10,
        max_daily_growth := 3, risk_level := risk,
        use_adaptive_sizing := true, use_profit_based_scaling := true }
  | .Custom =>
      { base_position_size := 250000000, max_position_size := 1000000000,
        growth_factor := 11 / 10, reduction_factor := 9 / 10,
        max_daily_growth := 2, risk_level := risk,
        use_adaptive_sizing := true, use_profit_based_scaling := true }

/-- VolatilityLevel from risk_management/mod.rs. -/
inductive VolatilityLevel
  | Low
  | Medium
  | High
  | Extreme
deriving Repr, DecidableEq

/-- MarketCondition from risk_management/mod.rs: liquidity_score is a u8,
trend_direction an i8. -/
structure MarketCondition where
  volatility : VolatilityLevel
  liquidity_score : Nat
  trend_direction : Int
  timestamp : Nat
deriving Repr, DecidableEq

/-- TradePerformance from risk_management/mod.rs. -/
structure TradePerformance where
  token_pair : TokenPair
  position_size : Nat
  profit_amount : Int
  profit_percentage : ℚ
  execution_time_ms : Nat
  timestamp : Nat
deriving Repr, DecidableEq

/-- PositionScalingManager from risk_management/mod.rs: both HashMap fields
are association lists, the Vec history is a list. -/
structure PositionScalingManager where
  config : PositionScalingConfig
  current_position_sizes : List (TokenPair × Nat)
  trade_history : List TradePerformance
  daily_starting_sizes : List (TokenPair × (Nat × Nat))
deriving Repr, DecidableEq

/-- PositionScalingManager::new. -/
def PositionScalingManager.new (cfg : PositionScalingConfig) :
    PositionScalingManager :=
  { config := cfg, current_position_sizes := [], trade_history := [],
    daily_starting_sizes := [] }

/-- PositionScalingManager::initialize_position_size; now is the value read
from the system clock. -/
def PositionScalingManager.initialize_position_size
    (m : PositionScalingManager) (p : TokenPair) (now : Nat) :
    PositionScalingManager :=
  match lookupA m.current_position_sizes p with
  | some _ => m
  | none =>
      { m with
        current_position_sizes :=
          insertA m.current_position_sizes p m.config.base_position_size,
        daily_starting_sizes :=
          insertA m.daily_starting_sizes p (m.config.base_position_size, now) }

/-- PositionScalingManager::check_daily_reset: after 24 hours the daily
baseline resets to the current size. The clock difference is a u64
subtraction. -/
def PositionScalingManager.check_daily_reset
    (m : PositionScalingManager) (p : TokenPair) (now : Nat) :
    PositionScalingManager :=
  match lookupA m.daily_starting_sizes p with
  | none => m
  | some (_, ts) =>
      if sub64 now ts > 24 * 60 * 60 then
        let current :=
          (lookupA m.current_position_sizes p).getD m.config.base_position_size
        { m with daily_starting_sizes :=
            insertA m.daily_starting_sizes p (current, now) }
      else m

/-- PositionScalingManager::get_position_size: lazily initializes the pair
and applies the daily reset before reading the size; returns the size and
the possibly mutated manager. -/
def PositionScalingManager.get_position_size
    (m : PositionScalingManager) (p : TokenPair) (now : Nat) :
    Nat × PositionScalingManager :=
  let m1 := m.initialize_position_size p now
  let m2 := m1.check_daily_reset p now
  ((lookupA m2.current_position_sizes p).getD m2.config.base_position_size, m2)

/-- PositionScalingManager::apply_position_limits: lower bound at half the
base size, then the configured maximum, then the daily-growth cap computed
from the recorded daily starting size. -/
def PositionScalingManager.apply_position_limits
    (m : PositionScalingManager) (p : TokenPair) (size : Nat) : Nat :=
  let s1 := max size (m.config.base_position_size / 2)
  let s2 := min s1 m.config.max_position_size
  match lookupA m.daily_starting_sizes p with
  | some (dstart, _) =>
      min s2 (castU64 ((dstart : ℚ) * m.config.max_daily_growth))
  | none => s2

/-- PositionScalingManager::update_position_size: scales the current size by
the growth or reduction factor, applies the limits, stores the new size and
appends a TradePerformance record (trimming the oldest 500 entries past
1000). -/
def PositionScalingManager.update_position_size
    (m : PositionScalingManager) (p : TokenPair) (success : Bool)
    (profit_amount : Int) (profit_percentage : ℚ)
    (execution_time_ms : Nat) (now : Nat) : PositionScalingManager :=
  let m1 := m.initialize_position_size p now
  let current :=
    (lookupA m1.current_position_sizes p).getD m1.config.base_position_size
  let new_size :=
    if success then
      let gf :=
        if m1.config.use_profit_based_scaling then
          let base_growth := m1.config.growth_factor - 1
          let adjusted_growth := base_growth * (1 + profit_percentage)
          1 + adjusted_growth
        else m1.config.growth_factor
      castU64 ((current : ℚ) * gf)
    else
      castU64 ((current : ℚ) * m1.config.reduction_factor)
  let limited := m1.apply_position_limits p new_size
  let hist := m1.trade_history ++
    [{ token_pair := p, position_size := current,
       profit_amount := profit_amount,
       profit_percentage := profit_percentage,
       execution_time_ms := execution_time_ms, timestamp := now }]
  { m1 with
    current_position_sizes := insertA m1.current_position_sizes p limited,
    trade_history := if hist.length > 1000 then hist.drop 500 else hist }

/-- Volatility multiplier used by adjust_for_market_conditions. -/
def volatilityFactor : VolatilityLevel → ℚ
  | .Low => 1
  | .Medium => 8 / 10
  | .High => 6 / 10
  | .Extreme => 3 / 10

/-- Trend multiplier used by adjust_for_market_conditions. -/
def trendFactor (trend : Int) : ℚ :=
  if trend > 0 then 1 + (trend : ℚ) / 200 else 1 + (trend : ℚ) / 100

/-- PositionScalingManager::adjust_for_market_conditions: returns the
market-adjusted, re-limited size together with the manager state after the
embedded get_position_size call. -/
def PositionScalingManager.adjust_for_market_conditions
    (m : PositionScalingManager) (p : TokenPair) (cond : MarketCondition)
    (now : Nat) : Nat × PositionScalingManager :=
  if m.config.use_adaptive_sizing = false then
    m.get_position_size p now
  else
    let r := m.get_position_size p now
    let vf := volatilityFactor cond.volatility
    let lf := (cond.liquidity_score : ℚ) / 100
    let tf := trendFactor cond.trend_direction
    let adjusted := castU64 ((r.1 : ℚ) * vf * lf * tf)
    (r.2.apply_position_limits p adjusted, r.2)

/-- Manager states reachable from PositionScalingManager::new under the
public operations (each clock read is an arbitrary value). -/
inductive PositionScalingManager.Reach (cfg : PositionScalingConfig) :
    PositionScalingManager → Prop
  | start : Reach cfg (PositionScalingManager.new cfg)
  | initStep (m : PositionScalingManager) (p : TokenPair) (now : Nat)
      (h : Reach cfg m) : Reach cfg (m.initialize_position_size p now)
  | getSize (m : PositionScalingManager) (p : TokenPair) (now : Nat)
      (h : Reach cfg m) : Reach cfg (m.get_position_size p now).2
  | update (m : PositionScalingManager) (p : TokenPair) (success : Bool)
      (pa : Int) (pct : ℚ) (ms now : Nat) (h : Reach cfg m) :
      Reach cfg (m.update_position_size p success pa pct ms now)
  | adjust (m : PositionScalingManager) (p : TokenPair)
      (cond : MarketCondition) (now : Nat) (h : Reach cfg m) :
      Reach cfg (m.adjust_for_market_conditions p cond now).2

/-- Floor invariant of the position-scaling state: every stored current size
and every recorded daily starting size is at least half the base position
size. -/
def FloorInv (m : PositionScalingManager) : Prop :=
  (∀ p sz, lookupA m.current_position_sizes p = some sz →
      m.config.base_position_size / 2 ≤ sz) ∧
  (∀ p ds ts, lookupA m.daily_starting_sizes p = some (ds, ts) →
      m.config.base_position_size / 2 ≤ ds)

/-- Concrete test configuration used to exercise the scaling claims. -/
def exampleScalingConfig : PositionScalingConfig :=
  { base_position_size := 100, max_position_size := 1000,
    growth_factor := 2, reduction_factor := 1 / 2, max_daily_growth := 3,
    risk_level := .Custom, use_adaptive_sizing := true,
    use_profit_based_scaling := false }

/-- Concrete manager with one initialized pair, for the scaling claims. -/
def exampleScalingManager : PositionScalingManager :=
  { config := exampleScalingConfig,
    current_position_sizes := [((0, 1), 100)], trade_history := [],
    daily_starting_sizes := [((0, 1), (100, 0))] }

/-- Constructible configuration whose daily-growth cap (a quarter of the
daily baseline) undercuts half the base size; 1/2 and 1/4 are exact in
f64. -/
def lowGrowthConfig : PositionScalingConfig :=
  { base_position_size := 100, max_position_size := 1000,
    growth_factor := 11 / 10, reduction_factor := 1 / 2,
    max_daily_growth := 1 / 4, risk_level := .Custom,
    use_adaptive_sizing := true, use_profit_based_scaling := true }

end RiskMgmt

namespace Arbitrage

/-- Engine counters mutated by the scan loop and its spawned executions in
arbitrage/mod.rs. -/
structure EngineCounters where
  active_operations : Nat
  total_executed : Nat
deriving Repr, DecidableEq

/-- Step relation of the scan/execute loop of ArbitrageEngine::start: a tick
dispatches an execution only when the active-operation count is below the
configured cap, incrementing the count before the spawn; each spawned
execution decrements the count when it completes. -/
inductive EngineStep (maxOps : Nat) : EngineCounters → EngineCounters → Prop
  | dispatch (s : EngineCounters) (h : s.active_operations < maxOps) :
      EngineStep maxOps s
        { active_operations := s.active_operations + 1,
          total_executed := s.total_executed + 1 }
  | complete (s : EngineCounters) (h : 0 < s.active_operations) :
      EngineStep maxOps s
        { active_operations := s.active_operations - 1,
          total_executed := s.total_executed }

/-- Counter states reachable from engine start (both counters zero, as set
by ArbitrageEngine::new). -/
inductive EngineReach (maxOps : Nat) : EngineCounters → Prop
  | start : EngineReach maxOps { active_operations := 0, total_executed := 0 }
  | step (s t : EngineCounters) (h : EngineReach maxOps s)
      (hs : EngineStep maxOps s t) : EngineReach maxOps t

end Arbitrage

/-! Helper lemmas shared by the claim theorems. -/

theorem sub64_eq_of_le (a b : Nat) (hb : b ≤ a) (ha : a < W64) :
    sub64 a b = a - b := by
  have hW : W64 = 18446744073709551616 := rfl
  simp only [sub64, hW] at *
  omega

theorem div100_add_le (x y : Nat) : x / 100 + y / 100 ≤ (x + y) / 100 := by
  rw [Nat.le_div_iff_mul_le (by norm_num)]
  have h1 := Nat.div_mul_le_self x 100
  have h2 := Nat.div_mul_le_self y 100
  omega

theorem rat_floor_eq_intFloor (q : ℚ) : q.floor = ⌊q⌋ := by
  rw [Rat.floor_def', Rat.floor_def]

theorem castU64_eq (q : ℚ) (n : Nat) (h0 : 0 ≤ q) (hf : ⌊q⌋ = n)
    (hn : n ≤ W64 - 1) : castU64 q = n := by
  unfold castU64
  rw [if_neg (not_lt.mpr h0), rat_floor_eq_intFloor, hf]
  simpa using Nat.min_eq_left hn

namespace ProfitMgmt

theorem distributionParts_le (cfg : ProfitDistributionConfig) (amount : Nat)
    (hsum : cfg.reinvestment_percentage + cfg.withdrawal_percentage ≤ 100) :
    (distributionParts cfg amount).1 + (distributionParts cfg amount).2.1 ≤
      amount := by
  have h1 : mul64 amount cfg.reinvestment_percentage / 100 ≤
      amount * cfg.reinvestment_percentage / 100 :=
    Nat.div_le_div_right (Nat.mod_le _ _)
  have h2 : mul64 amount cfg.withdrawal_percentage / 100 ≤
      amount * cfg.withdrawal_percentage / 100 :=
    Nat.div_le_div_right (Nat.mod_le _ _)
  have h3 := div100_add_le (amount * cfg.reinvestment_percentage)
    (amount * cfg.withdrawal_percentage)
  have h4 : (amount * cfg.reinvestment_percentage +
      amount * cfg.withdrawal_percentage) / 100 ≤ amount := by
    have h5 : amount * cfg.reinvestment_percentage +
        amount * cfg.withdrawal_percentage ≤ amount * 100 := by
      rw [← Nat.mul_add]
      exact Nat.mul_le_mul_left amount hsum
    calc (amount * cfg.reinvestment_percentage +
            amount * cfg.withdrawal_percentage) / 100
        ≤ amount * 100 / 100 := Nat.div_le_div_right h5
      _ = amount := Nat.mul_div_cancel amount (by norm_num)
  simp only [distributionParts]
  omega

/-- C1: in every distribution call of ProfitManager::distribute_profits, for
a token whose undistributed profit `amount` qualifies (at least the minimum
distribution amount), the computed reinvest, withdraw and reserve parts sum
exactly to the distributed amount, for every u64 amount and every percentage
triple summing to 100: the reserve is the exact remainder and the u64
subtractions cannot underflow. -/
theorem distributionParts_sum_exact (cfg : ProfitDistributionConfig)
    (amount : Nat) (ha : amount < W64)
    (hmin : cfg.min_distribution_amount ≤ amount)
    (hsum : cfg.reinvestment_percentage + cfg.withdrawal_percentage +
      cfg.reserve_percentage = 100) :
    (distributionParts cfg amount).1 + (distributionParts cfg amount).2.1 +
      (distributionParts cfg amount).2.2 = amount := by
  have hle : cfg.reinvestment_percentage + cfg.withdrawal_percentage ≤ 100 :=
    by omega
  have hparts := distributionParts_le cfg amount hle
  simp only [distributionParts] at hparts ⊢
  set ri := mul64 amount cfg.reinvestment_percentage / 100 with hri
  set wd := mul64 amount cfg.withdrawal_percentage / 100 with hwd
  have hriA : ri ≤ amount := by omega
  have hs1 : sub64 amount ri = amount - ri := sub64_eq_of_le amount ri hriA ha
  have hs2 : sub64 (amount - ri) wd = amount - ri - wd :=
    sub64_eq_of_le (amount - ri) wd (by omega) (by omega)
  rw [hs1, hs2]
  omega

/-- Witness for distributionParts_sum_exact at the documented default split
70/30/0 with one SOL of profit. -/
theorem distributionParts_sum_exact_witness :
    (1000000000 : Nat) < W64 ∧
    ({ reinvestment_percentage := 70, withdrawal_percentage := 30,
       reserve_percentage := 0, owner_wallet := 0,
       min_distribution_amount := 1000000 } :
        ProfitDistributionConfig).min_distribution_amount ≤ 1000000000 ∧
    70 + 30 + 0 = 100 ∧
    ((distributionParts
        { reinvestment_percentage := 70, withdrawal_percentage := 30,
          reserve_percentage := 0, owner_wallet := 0,
          min_distribution_amount := 1000000 } 1000000000).1 +
      (distributionParts
        { reinvestment_percentage := 70, withdrawal_percentage := 30,
          reserve_percentage := 0, owner_wallet := 0,
          min_distribution_amount := 1000000 } 1000000000).2.1 +
      (distributionParts
        { reinvestment_percentage := 70, withdrawal_percentage := 30,
          reserve_percentage := 0, owner_wallet := 0,
          min_distribution_amount := 1000000 } 1000000000).2.2 =
        1000000000) :=
  ⟨by decide, by decide, by decide,
    distributionParts_sum_exact _ 1000000000 (by decide) (by decide)
      (by decide)⟩

/-- C7 counterexample: with the u8 percentages 200, 56 and 100 - which sum
to 356, not 100 - the wrapping u8 addition in the validation of
ProfitDistributionConfig::new evaluates to 100, so construction succeeds
even though the percentages do not sum to 100. -/
theorem config_new_u8_wrap_counterexample :
    ProfitDistributionConfig.new 200 56 100 0 0 =
      .ok { reinvestment_percentage := 200, withdrawal_percentage := 56,
            reserve_percentage := 100, owner_wallet := 0,
            min_distribution_amount := 0 } ∧
    200 + 56 + 100 ≠ 100 := by
  constructor
  · rfl
  · decide

/-- C7 (amended): for u8 percentages, ProfitDistributionConfig::new succeeds
exactly when the sum of the three percentages is congruent to 100 modulo
256; in particular, for percentages within the documented range 0 to 100 the
construction succeeds exactly when the sum is 100. -/
theorem config_new_ok_iff_mod (r w s o a : Nat)
    (hr : r < 256) (hw : w < 256) (hs : s < 256) :
    (∃ cfg, ProfitDistributionConfig.new r w s o a = .ok cfg) ↔
      (r + w + s) % 256 = 100 := by
  have hadd : add8 (add8 r w) s = (r + w + s) % 256 := by
    simp [add8, Nat.mod_add_mod]
  unfold ProfitDistributionConfig.new
  rw [hadd]
  by_cases h : (r + w + s) % 256 = 100 <;> simp [h]

/-- Witness for config_new_ok_iff_mod at the default 70/30/0 split. -/
theorem config_new_ok_iff_mod_witness :
    (70 : Nat) < 256 ∧ (30 : Nat) < 256 ∧ (0 : Nat) < 256 ∧
    ((∃ cfg, ProfitDistributionConfig.new 70 30 0 0 1000000 = .ok cfg) ↔
      (70 + 30 + 0) % 256 = 100) :=
  ⟨by decide, by decide, by decide,
    config_new_ok_iff_mod 70 30 0 0 1000000 (by decide) (by decide)
      (by decide)⟩

theorem distributeGo_lookup_skip (cfg : ProfitDistributionConfig)
    (acc : DistributionResult) (l : List (Pubkey × TokenProfit)) (t : Pubkey)
    (tp : TokenProfit) (hl : lookupA l t = some tp)
    (hmin : tp.undistributed_profit < cfg.min_distribution_amount) :
    lookupA (distributeGo cfg acc l).2 t = some tp := by
  induction l generalizing acc with
  | nil => simp [lookupA] at hl
  | cons hd rest ih =>
    obtain ⟨k, v⟩ := hd
    by_cases hk : k = t
    · subst hk
      rw [lookupA, if_pos rfl] at hl
      injection hl with hv
      subst hv
      rw [distributeGo, if_pos hmin]
      simp [lookupA]
    · rw [lookupA, if_neg hk] at hl
      rw [distributeGo]
      by_cases hb : v.undistributed_profit < cfg.min_distribution_amount
      · rw [if_pos hb]
        simp only [lookupA, if_neg hk]
        exact ih acc hl
      · rw [if_neg hb]
        rcases hok : v.distribute_profit v.undistributed_profit with e | pr
        · simp only [hok, lookupA, if_neg hk]
          exact hl
        · obtain ⟨r, v'⟩ := pr
          simp only [hok, lookupA, if_neg hk]
          exact ih _ hl

theorem iterDistribute_config (m : ProfitManager) (n : Nat) :
    (iterDistribute m n).config = m.config := by
  induction n with
  | zero => rfl
  | succ n ih => simp [iterDistribute, ProfitManager.distribute_profits, ih]

/-- C9: distribute_profits is idempotent for a token whose undistributed
profit is below min_distribution_amount: after any number of calls of
ProfitManager::distribute_profits the TokenProfit record of that token is
unchanged. -/
theorem distribute_profits_idempotent_below_min (m : ProfitManager)
    (t : Pubkey) (tp : TokenProfit) (n : Nat)
    (hl : lookupA m.token_profits t = some tp)
    (hmin : tp.undistributed_profit < m.config.min_distribution_amount) :
    lookupA (iterDistribute m n).token_profits t = some tp := by
  induction n with
  | zero => exact hl
  | succ n ih =>
    have hcfg := iterDistribute_config m n
    show lookupA (ProfitManager.distribute_profits
      (iterDistribute m n)).2.token_profits t = some tp
    simp only [ProfitManager.distribute_profits]
    exact distributeGo_lookup_skip _ _ _ t tp (by exact ih)
      (by rw [hcfg]; exact hmin)

/-- Witness for distribute_profits_idempotent_below_min: a ledger holding 10
lamports of undistributed profit, below the 1000000 minimum, after two
distribution calls. -/
theorem distribute_profits_idempotent_below_min_witness :
    lookupA
      ({ config := { reinvestment_percentage := 70,
                     withdrawal_percentage := 30, reserve_percentage := 0,
                     owner_wallet := 0, min_distribution_amount := 1000000 },
         token_profits := [(5, ⟨5, 10, 0, 10, 1, 0⟩)],
         total_sol_profit := 0, total_usd_profit := 0 } :
        ProfitManager).token_profits 5 = some ⟨5, 10, 0, 10, 1, 0⟩ ∧
    (10 : Nat) < 1000000 ∧
    lookupA (iterDistribute
      { config := { reinvestment_percentage := 70,
                    withdrawal_percentage := 30, reserve_percentage := 0,
                    owner_wallet := 0, min_distribution_amount := 1000000 },
        token_profits := [(5, ⟨5, 10, 0, 10, 1, 0⟩)],
        total_sol_profit := 0, total_usd_profit := 0 } 2).token_profits 5 =
      some ⟨5, 10, 0, 10, 1, 0⟩ :=
  ⟨by decide, by decide,
    distribute_profits_idempotent_below_min _ 5 _ 2 (by decide) (by decide)⟩

/-- C10 counterexample: a TokenProfit state reachable by recording a profit
of 2^64 - 1, distributing it, then recording a profit of 1: the u64 total
wraps to 0 while distributed + undistributed equals 2^64, so the exact
invariant total = distributed + undistributed fails. -/
theorem token_profit_overflow_counterexample :
    TokenProfit.Reach ⟨0, 0, W64 - 1, 1, 2, 0⟩ ∧
    (⟨0, 0, W64 - 1, 1, 2, 0⟩ : TokenProfit).total_profit ≠
      (⟨0, 0, W64 - 1, 1, 2, 0⟩ : TokenProfit).distributed_profit +
        (⟨0, 0, W64 - 1, 1, 2, 0⟩ : TokenProfit).undistributed_profit := by
  constructor
  · have h1 : TokenProfit.Reach (TokenProfit.new 0) := .new 0
    have h2 := h1.record (W64 - 1) (by decide)
    have h3 : (TokenProfit.new 0).record_profit (W64 - 1) =
        ⟨0, W64 - 1, 0, W64 - 1, 1, 0⟩ := by decide
    rw [h3] at h2
    have h4 := h2.distribute (W64 - 1) (W64 - 1)
      ⟨0, W64 - 1, W64 - 1, 0, 1, 0⟩ rfl
    have h5 := h4.record 1 (by decide)
    have h6 : (⟨0, W64 - 1, W64 - 1, 0, 1, 0⟩ : TokenProfit).record_profit 1 =
        ⟨0, 0, W64 - 1, 1, 2, 0⟩ := by decide
    rw [h6] at h5
    exact h5
  · decide

/-- C10 (amended): for every TokenProfit state reachable from
TokenProfit::new by record_profit, record_failed_trade and successful
distribute_profit calls, the invariant total = distributed + undistributed
holds modulo 2^64 (hence exactly as long as the accumulated profit stays
below 2^64); moreover distribute_profit with an amount exceeding the
undistributed profit returns an error and produces no updated state. -/
theorem token_profit_invariant_mod (tp : TokenProfit)
    (h : TokenProfit.Reach tp) :
    tp.total_profit =
      (tp.distributed_profit + tp.undistributed_profit) % W64 ∧
    ∀ amount, tp.undistributed_profit < amount →
      tp.distribute_profit amount =
        .error ("Cannot distribute " ++ Nat.repr amount ++ " - only " ++
                Nat.repr tp.undistributed_profit ++ " available") := by
  have herr : ∀ (u : TokenProfit), ∀ amount,
      u.undistributed_profit < amount →
      u.distribute_profit amount =
        .error ("Cannot distribute " ++ Nat.repr amount ++ " - only " ++
                Nat.repr u.undistributed_profit ++ " available") := by
    intro u amount hu
    rw [TokenProfit.distribute_profit, if_pos hu]
  refine ⟨?_, herr tp⟩
  induction h with
  | new mint => simp [TokenProfit.new]
  | record amount ha h ih =>
    simp only [TokenProfit.record_profit, add64]
    rw [ih, Nat.mod_add_mod, Nat.add_mod_mod, Nat.add_assoc]
  | failedTrade h ih =>
    simpa [TokenProfit.record_failed_trade] using ih
  | distribute amount r tp' h hok ih =>
    rename_i tp0
    simp only [TokenProfit.distribute_profit] at hok
    by_cases hgt : amount > tp0.undistributed_profit
    · rw [if_pos hgt] at hok
      exact absurd hok (by simp)
    · rw [if_neg hgt] at hok
      injection hok with hok
      injection hok with _ hok
      subst hok
      simp only [add64]
      rw [ih, Nat.mod_add_mod]
      congr 1
      omega

/-- Witness for token_profit_invariant_mod after one recorded profit. -/
theorem token_profit_invariant_mod_witness :
    ((TokenProfit.new 0).record_profit 5).total_profit =
      (((TokenProfit.new 0).record_profit 5).distributed_profit +
        ((TokenProfit.new 0).record_profit 5).undistributed_profit) % W64 ∧
    ∀ amount,
      ((TokenProfit.new 0).record_profit 5).undistributed_profit < amount →
      ((TokenProfit.new 0).record_profit 5).distribute_profit amount =
        .error ("Cannot distribute " ++ Nat.repr amount ++ " - only " ++
          Nat.repr ((TokenProfit.new 0).record_profit
            5).undistributed_profit ++ " available") :=
  token_profit_invariant_mod _
    (TokenProfit.Reach.record 5 (by decide) (.new 0))

end ProfitMgmt

namespace Arbitrage

/-- C4: in every reachable state of the scan/execute step relation of
ArbitrageEngine::start - a tick dispatches only below the cap, incrementing
the active counter before the spawn, and each completion decrements it - the
active-operation count never exceeds max_concurrent_operations. -/
theorem active_le_max_concurrent (maxOps : Nat) (s : EngineCounters)
    (h : EngineReach maxOps s) : s.active_operations ≤ maxOps := by
  induction h with
  | start => exact Nat.zero_le _
  | step s t h hs ih =>
    cases hs with
    | dispatch hlt => exact hlt
    | complete hpos => exact Nat.le_trans (Nat.sub_le _ _) ih

/-- Witness for active_le_max_concurrent: one dispatch under the default cap
of 3 concurrent operations. -/
theorem active_le_max_concurrent_witness :
    ({ active_operations := 1, total_executed := 1 } :
      EngineCounters).active_operations ≤ 3 :=
  active_le_max_concurrent 3 _
    (EngineReach.step _ _ EngineReach.start
      (EngineStep.dispatch _ (by decide)))

end Arbitrage

namespace FlashLoan

/-- C5 counterexample: with the FlashProtocol provider configured with a
maximum loan amount of 0, requesting a loan of 1 exceeds the maximum yet
create_flash_loan_instruction produces an instruction instead of a
ParameterError: only the Solend path validates the amount. -/
theorem flash_protocol_no_max_check :
    (1 : Nat) >
      ({ config := { provider := .FlashProtocol, max_loan_amount := 0,
                     fee_percentage := 2 / 10,
                     custom_provider_program_id := none },
         solend_program_id := 1, flash_protocol_program_id := 2,
         flash_loan_mastery_program_id := 3 } :
        FlashLoanManager).config.max_loan_amount ∧
    FlashLoanManager.create_flash_loan_instruction
      { config := { provider := .FlashProtocol, max_loan_amount := 0,
                    fee_percentage := 2 / 10,
                    custom_provider_program_id := none },
        solend_program_id := 1, flash_protocol_program_id := 2,
        flash_loan_mastery_program_id := 3 } 1 10 11 12 13 =
      .ok { program_id := 2, accounts := loanAccounts 10 11 12 13,
            data := 1 :: u64ToLeBytes 1 } := by
  exact ⟨by decide, rfl⟩

/-- C5 (amended): an oversized amount is rejected with a ParameterError only
when the configured provider is Solend; the FlashProtocol and
FlashLoanMastery builders produce an instruction for every amount, and the
Custom provider always fails with a ProviderError. -/
theorem create_flash_loan_instruction_validation (m : FlashLoanManager)
    (amount : Nat) (tm b r cb : Pubkey)
    (h : amount > m.config.max_loan_amount) :
    (m.config.provider = .Solend →
      m.create_flash_loan_instruction amount tm b r cb =
        .error (.ParameterError ("Loan amount " ++ Nat.repr amount ++
          " exceeds maximum " ++ Nat.repr m.config.max_loan_amount))) ∧
    (m.config.provider = .FlashProtocol →
      ∃ instr, m.create_flash_loan_instruction amount tm b r cb =
        .ok instr) ∧
    (m.config.provider = .FlashLoanMastery →
      ∃ instr, m.create_flash_loan_instruction amount tm b r cb =
        .ok instr) ∧
    (m.config.provider = .Custom →
      m.create_flash_loan_instruction amount tm b r cb =
        .error (.ProviderError "Custom provider not implemented")) := by
  refine ⟨?_, ?_, ?_, ?_⟩ <;> intro hp <;>
    simp only [FlashLoanManager.create_flash_loan_instruction, hp,
      FlashLoanManager.create_solend_flash_loan_instruction,
      FlashLoanManager.create_flash_protocol_instruction,
      FlashLoanManager.create_flash_loan_mastery_instruction]
  · rw [if_pos h]
  · exact ⟨_, rfl⟩
  · exact ⟨_, rfl⟩

/-- Witness for create_flash_loan_instruction_validation: a Solend manager
with a zero maximum and a request for 1 lamport. -/
theorem create_flash_loan_instruction_validation_witness :
    (1 : Nat) >
      ({ config := { provider := .Solend, max_loan_amount := 0,
                     fee_percentage := 3 / 10,
                     custom_provider_program_id := none },
         solend_program_id := 1, flash_protocol_program_id := 2,
         flash_loan_mastery_program_id := 3 } :
        FlashLoanManager).config.max_loan_amount ∧
    (({ config := { provider := .Solend, max_loan_amount := 0,
                    fee_percentage := 3 / 10,
                    custom_provider_program_id := none },
        solend_program_id := 1, flash_protocol_program_id := 2,
        flash_loan_mastery_program_id := 3 } :
          FlashLoanManager).config.provider = .Solend →
      FlashLoanManager.create_flash_loan_instruction
        { config := { provider := .Solend, max_loan_amount := 0,
                      fee_percentage := 3 / 10,
                      custom_provider_program_id := none },
          solend_program_id := 1, flash_protocol_program_id := 2,
          flash_loan_mastery_program_id := 3 } 1 10 11 12 13 =
        .error (.ParameterError ("Loan amount " ++ Nat.repr 1 ++
          " exceeds maximum " ++ Nat.repr 0))) :=
  ⟨by decide,
    (create_flash_loan_instruction_validation _ 1 10 11 12 13 (by decide)).1⟩

end FlashLoan

theorem lookupA_insertA {α β : Type} [DecidableEq α]
    (l : List (α × β)) (k a : α) (v : β) :
    lookupA (insertA l k v) a = if k = a then some v else lookupA l a := by
  induction l with
  | nil => simp [insertA, lookupA]
  | cons hd rest ih =>
    obtain ⟨k', v'⟩ := hd
    by_cases hk : k' = k
    · subst hk
      rw [insertA, if_pos rfl]
      by_cases ha : k' = a
      · subst ha
        simp [lookupA]
      · simp [lookupA, ha]
    · rw [insertA, if_neg hk]
      by_cases ha : k' = a
      · subst ha
        have : ¬ k = k' := fun h => hk h.symm
        simp [lookupA, this]
      · simp [lookupA, ha, ih]

namespace RiskMgmt

theorem initialize_config (m : PositionScalingManager) (p : TokenPair)
    (now : Nat) :
    (m.initialize_position_size p now).config = m.config := by
  unfold PositionScalingManager.initialize_position_size
  split <;> rfl

theorem check_daily_reset_config (m : PositionScalingManager) (p : TokenPair)
    (now : Nat) : (m.check_daily_reset p now).config = m.config := by
  unfold PositionScalingManager.check_daily_reset
  split
  · rfl
  · split <;> rfl

theorem get_position_size_config (m : PositionScalingManager) (p : TokenPair)
    (now : Nat) : (m.get_position_size p now).2.config = m.config := by
  unfold PositionScalingManager.get_position_size
  rw [check_daily_reset_config, initialize_config]

theorem update_position_size_config (m : PositionScalingManager)
    (p : TokenPair) (success : Bool) (pa : Int) (pct : ℚ) (ms now : Nat) :
    (m.update_position_size p success pa pct ms now).config = m.config := by
  unfold PositionScalingManager.update_position_size
  rw [initialize_config]

theorem adjust_config (m : PositionScalingManager) (p : TokenPair)
    (cond : MarketCondition) (now : Nat) :
    (m.adjust_for_market_conditions p cond now).2.config = m.config := by
  unfold PositionScalingManager.adjust_for_market_conditions
  split
  · rw [get_position_size_config]
  · rw [get_position_size_config]

theorem castU64_ge_of_one_le (lo ds : Nat) (g : ℚ) (hlo : lo ≤ ds)
    (hloW : lo ≤ W64 - 1) (hg : 1 ≤ g) :
    lo ≤ castU64 ((ds : ℚ) * g) := by
  unfold castU64
  have h0 : (0 : ℚ) ≤ (ds : ℚ) * g :=
    mul_nonneg (by positivity) (le_trans zero_le_one hg)
  rw [if_neg (not_lt.mpr h0)]
  have h1 : (ds : ℚ) ≤ (ds : ℚ) * g :=
    le_mul_of_one_le_right (by positivity) hg
  have h2 : (ds : ℤ) ≤ ((ds : ℚ) * g).floor := by
    rw [Rat.le_floor]
    exact_mod_cast h1
  have h3 : ds ≤ ((ds : ℚ) * g).floor.toNat := by
    have h4 : ((ds : ℚ) * g).floor.toNat = ((ds : ℚ) * g).floor := by
      rw [Int.toNat_of_nonneg]
      exact le_trans (Int.ofNat_zero_le ds) h2
    omega
  exact le_min (le_trans hlo h3) hloW

theorem apply_position_limits_ge (m : PositionScalingManager) (p : TokenPair)
    (size : Nat)
    (hmax : m.config.base_position_size / 2 ≤ m.config.max_position_size)
    (hg : 1 ≤ m.config.max_daily_growth)
    (hbase : m.config.base_position_size < W64)
    (hds : ∀ ds ts, lookupA m.daily_starting_sizes p = some (ds, ts) →
        m.config.base_position_size / 2 ≤ ds) :
    m.config.base_position_size / 2 ≤ m.apply_position_limits p size := by
  have hloW : m.config.base_position_size / 2 ≤ W64 - 1 := by
    have := Nat.div_le_self m.config.base_position_size 2
    omega
  unfold PositionScalingManager.apply_position_limits
  cases hl : lookupA m.daily_starting_sizes p with
  | none =>
      exact le_min (le_trans (Nat.le_max_right _ _) (le_refl _)) hmax
  | some dspair =>
      obtain ⟨ds, ts⟩ := dspair
      exact le_min (le_min (Nat.le_max_right _ _) hmax)
        (castU64_ge_of_one_le _ ds _ (hds ds ts hl) hloW hg)

theorem floorInv_initPos (m : PositionScalingManager) (p : TokenPair)
    (now : Nat) (h : FloorInv m) :
    FloorInv (m.initialize_position_size p now) := by
  obtain ⟨hcur, hdaily⟩ := h
  unfold PositionScalingManager.initialize_position_size
  cases hl : lookupA m.current_position_sizes p with
  | some _ => exact ⟨hcur, hdaily⟩
  | none =>
      constructor
      · intro q sz hq
        simp only [lookupA_insertA] at hq
        by_cases hpq : p = q
        · rw [if_pos hpq] at hq
          injection hq with hq
          exact hq ▸ Nat.div_le_self _ _
        · rw [if_neg hpq] at hq
          exact hcur q sz hq
      · intro q ds ts hq
        simp only [lookupA_insertA] at hq
        by_cases hpq : p = q
        · rw [if_pos hpq, Option.some.injEq, Prod.mk.injEq] at hq
          obtain ⟨hq1, _⟩ := hq
          rw [← hq1]
          exact Nat.div_le_self _ _
        · rw [if_neg hpq] at hq
          exact hdaily q ds ts hq

theorem floorInv_check_daily_reset (m : PositionScalingManager)
    (p : TokenPair) (now : Nat) (h : FloorInv m) :
    FloorInv (m.check_daily_reset p now) := by
  obtain ⟨hcur, hdaily⟩ := h
  unfold PositionScalingManager.check_daily_reset
  split
  · exact ⟨hcur, hdaily⟩
  · split
    · refine ⟨hcur, ?_⟩
      intro q ds ts hq
      simp only [lookupA_insertA] at hq
      by_cases hpq : p = q
      · rw [if_pos hpq, Option.some.injEq, Prod.mk.injEq] at hq
        obtain ⟨hq1, _⟩ := hq
        rw [← hq1]
        cases hc : lookupA m.current_position_sizes p with
        | none => simp only [hc, Option.getD_none]; exact Nat.div_le_self _ _
        | some sz => simp only [hc, Option.getD_some]; exact hcur p sz hc
      · rw [if_neg hpq] at hq
        exact hdaily q ds ts hq
    · exact ⟨hcur, hdaily⟩

theorem floorInv_get_position_size (m : PositionScalingManager)
    (p : TokenPair) (now : Nat) (h : FloorInv m) :
    FloorInv (m.get_position_size p now).2 :=
  floorInv_check_daily_reset _ p now (floorInv_initPos m p now h)

theorem floorInv_update_position_size (m : PositionScalingManager)
    (p : TokenPair) (success : Bool) (pa : Int) (pct : ℚ) (ms now : Nat)
    (hmax : m.config.base_position_size / 2 ≤ m.config.max_position_size)
    (hg : 1 ≤ m.config.max_daily_growth)
    (hbase : m.config.base_position_size < W64)
    (h : FloorInv m) :
    FloorInv (m.update_position_size p success pa pct ms now) := by
  have h1 := floorInv_initPos m p now h
  have hc := initialize_config m p now
  obtain ⟨hcur, hdaily⟩ := h1
  simp only [PositionScalingManager.update_position_size]
  constructor
  · intro q sz hq
    simp only [lookupA_insertA] at hq
    by_cases hpq : p = q
    · rw [if_pos hpq, Option.some.injEq] at hq
      rw [← hq]
      exact apply_position_limits_ge _ p _ (by rw [hc]; exact hmax)
        (by rw [hc]; exact hg) (by rw [hc]; exact hbase)
        (fun ds ts hl => hdaily p ds ts hl)
    · rw [if_neg hpq] at hq
      exact hcur q sz hq
  · intro q ds ts hq
    exact hdaily q ds ts hq

theorem floorInv_adjust (m : PositionScalingManager) (p : TokenPair)
    (cond : MarketCondition) (now : Nat) (h : FloorInv m) :
    FloorInv (m.adjust_for_market_conditions p cond now).2 := by
  unfold PositionScalingManager.adjust_for_market_conditions
  split
  · exact floorInv_get_position_size m p now h
  · exact floorInv_get_position_size m p now h

theorem reach_config (cfg : PositionScalingConfig)
    (m : PositionScalingManager) (h : PositionScalingManager.Reach cfg m) :
    m.config = cfg := by
  induction h with
  | start => rfl
  | initStep m p now h ih => rw [initialize_config]; exact ih
  | getSize m p now h ih => rw [get_position_size_config]; exact ih
  | update m p success pa pct ms now h ih =>
      rw [update_position_size_config]; exact ih
  | adjust m p cond now h ih => rw [adjust_config]; exact ih

theorem reach_floorInv (cfg : PositionScalingConfig)
    (hmax : cfg.base_position_size / 2 ≤ cfg.max_position_size)
    (hg : 1 ≤ cfg.max_daily_growth)
    (hbase : cfg.base_position_size < W64)
    (m : PositionScalingManager) (h : PositionScalingManager.Reach cfg m) :
    FloorInv m := by
  induction h with
  | start =>
      exact ⟨fun p sz hq => by simp [PositionScalingManager.new, lookupA] at hq,
        fun p ds ts hq => by simp [PositionScalingManager.new, lookupA] at hq⟩
  | initStep m p now h ih => exact floorInv_initPos m p now ih
  | getSize m p now h ih => exact floorInv_get_position_size m p now ih
  | update m p success pa pct ms now h ih =>
      have hcfg := reach_config cfg m h
      exact floorInv_update_position_size m p success pa pct ms now
        (by rw [hcfg]; exact hmax) (by rw [hcfg]; exact hg)
        (by rw [hcfg]; exact hbase) ih
  | adjust m p cond now h ih => exact floorInv_adjust m p cond now ih

/-- C3 (amended): for a configuration whose maximum position size is at
least half the base size and whose daily growth factor is at least 1 - true
of every PositionScalingConfig::new preset - the stored position size never
drops below base_position_size / 2 in any reachable manager state, hence
after any sequence of failed updates. Without these conditions the daily
cap, applied after the lower clamp, can push the stored size below the
floor. -/
theorem position_floor_of_config (cfg : PositionScalingConfig)
    (m : PositionScalingManager) (p : TokenPair) (sz : Nat)
    (hmax : cfg.base_position_size / 2 ≤ cfg.max_position_size)
    (hg : 1 ≤ cfg.max_daily_growth)
    (hbase : cfg.base_position_size < W64)
    (h : PositionScalingManager.Reach cfg m)
    (hl : lookupA m.current_position_sizes p = some sz) :
    cfg.base_position_size / 2 ≤ sz := by
  have hinv := reach_floorInv cfg hmax hg hbase m h
  have hcfg := reach_config cfg m h
  have hfloor := hinv.1 p sz hl
  rw [hcfg] at hfloor
  exact hfloor

/-- Witness for position_floor_of_config: the Conservative preset after lazy
initialization of one pair. -/
theorem position_floor_of_config_witness :
    (PositionScalingConfig.new .Conservative).base_position_size / 2 ≤
      (PositionScalingConfig.new .Conservative).max_position_size ∧
    (1 : ℚ) ≤ (PositionScalingConfig.new .Conservative).max_daily_growth ∧
    (PositionScalingConfig.new .Conservative).base_position_size < W64 ∧
    (PositionScalingConfig.new .Conservative).base_position_size / 2 ≤
      100000000 :=
  ⟨by decide, by norm_num [PositionScalingConfig.new], by decide,
    position_floor_of_config _ _ (0, 1) 100000000 (by decide)
      (by norm_num [PositionScalingConfig.new]) (by decide)
      (PositionScalingManager.Reach.initStep _ (0, 1) 0
        PositionScalingManager.Reach.start)
      (by decide)⟩

/-- C3 counterexample: with a constructible configuration whose daily growth
cap (max_daily_growth = 1/4) undercuts half the base size, a single failed
update from the freshly initialized state stores a position size of 25,
strictly below base_position_size / 2 = 50: the daily cap is applied after
the lower clamp in apply_position_limits. The factors 1/2 and 1/4 are exact
in f64, so the rational model agrees with the Rust computation here. -/
theorem position_floor_counterexample :
    PositionScalingManager.Reach lowGrowthConfig
      ((PositionScalingManager.new lowGrowthConfig).update_position_size
        (0, 1) false 0 0 0 0) ∧
    lookupA ((PositionScalingManager.new
        lowGrowthConfig).update_position_size
        (0, 1) false 0 0 0 0).current_position_sizes (0, 1) = some 25 ∧
    25 < lowGrowthConfig.base_position_size / 2 := by
  refine ⟨PositionScalingManager.Reach.update _ (0, 1) false 0 0 0 0
      PositionScalingManager.Reach.start, ?_, by decide⟩
  have hinit : (PositionScalingManager.new
      lowGrowthConfig).initialize_position_size (0, 1) 0 =
      { config := lowGrowthConfig,
        current_position_sizes := [((0, 1), 100)], trade_history := [],
        daily_starting_sizes := [((0, 1), (100, 0))] } := rfl
  have e1 : castU64 (50 : ℚ) = 50 :=
    castU64_eq _ 50 (by norm_num) (by norm_num) (by norm_num [W64])
  have e2 : castU64 (25 : ℚ) = 25 :=
    castU64_eq _ 25 (by norm_num) (by norm_num) (by norm_num [W64])
  simp only [PositionScalingManager.update_position_size, hinit]
  norm_num [lowGrowthConfig, lookupA, insertA,
    PositionScalingManager.apply_position_limits]
  rw [e1, e2]
  omega

/-- C2: update_position_size stores current x growthFactor on success -
where growthFactor is the configured constant, or
1 + (growth_factor - 1) x (1 + profit_percentage) under profit-based
scaling - and current x reduction_factor on failure, clamped below by
base_position_size / 2 and above by max_position_size and by the daily
baseline times max_daily_growth. -/
theorem update_position_size_formula (m : PositionScalingManager)
    (p : TokenPair) (success : Bool) (pa : Int) (pct : ℚ) (ms now : Nat)
    (c ds ts : Nat)
    (hc : lookupA m.current_position_sizes p = some c)
    (hd : lookupA m.daily_starting_sizes p = some (ds, ts)) :
    lookupA (m.update_position_size p success pa pct ms
        now).current_position_sizes p =
      some (min (min (max (castU64 ((c : ℚ) *
            (if success then
               (if m.config.use_profit_based_scaling then
                  1 + (m.config.growth_factor - 1) * (1 + pct)
                else m.config.growth_factor)
             else m.config.reduction_factor)))
            (m.config.base_position_size / 2))
          m.config.max_position_size)
        (castU64 ((ds : ℚ) * m.config.max_daily_growth))) := by
  have hm1 : m.initialize_position_size p now = m := by
    unfold PositionScalingManager.initialize_position_size
    rw [hc]
  cases success with
  | false =>
      simp [PositionScalingManager.update_position_size, hm1, hc,
        PositionScalingManager.apply_position_limits, hd, lookupA_insertA]
  | true =>
      simp [PositionScalingManager.update_position_size, hm1, hc,
        PositionScalingManager.apply_position_limits, hd, lookupA_insertA]

/-- Witness for update_position_size_formula: a successful update on an
initialized pair without profit-based scaling. -/
theorem update_position_size_formula_witness :
    lookupA exampleScalingManager.current_position_sizes (0, 1) =
      some 100 ∧
    lookupA exampleScalingManager.daily_starting_sizes (0, 1) =
      some (100, 0) ∧
    lookupA (exampleScalingManager.update_position_size (0, 1) true 50
        (1 / 10) 7 3).current_position_sizes (0, 1) =
      some (min (min (max (castU64 ((100 : ℚ) *
            (if true then
               (if exampleScalingManager.config.use_profit_based_scaling
                then
                  1 + (exampleScalingManager.config.growth_factor - 1) *
                    (1 + 1 / 10)
                else exampleScalingManager.config.growth_factor)
             else exampleScalingManager.config.reduction_factor)))
            (exampleScalingManager.config.base_position_size / 2))
          exampleScalingManager.config.max_position_size)
        (castU64 ((100 : ℚ) *
          exampleScalingManager.config.max_daily_growth))) :=
  ⟨by decide, by decide,
    update_position_size_formula _ (0, 1) true 50 (1 / 10) 7 3 100 100 0
      (by decide) (by decide)⟩

/-- C8 counterexample: adjust_for_market_conditions is not mutation-free:
called on a pair that has not been initialized, the embedded
get_position_size lazily inserts the pair, so both the stored current
position sizes and the stored daily baselines differ before and after the
call. -/
theorem adjust_mutates_fresh_pair :
    ((PositionScalingManager.new (PositionScalingConfig.new
        .Conservative)).adjust_for_market_conditions (0, 1)
      { volatility := .Low, liquidity_score := 100, trend_direction := 0,
        timestamp := 0 } 0).2.current_position_sizes ≠
    (PositionScalingManager.new (PositionScalingConfig.new
        .Conservative)).current_position_sizes ∧
    ((PositionScalingManager.new (PositionScalingConfig.new
        .Conservative)).adjust_for_market_conditions (0, 1)
      { volatility := .Low, liquidity_score := 100, trend_direction := 0,
        timestamp := 0 } 0).2.daily_starting_sizes ≠
    (PositionScalingManager.new (PositionScalingConfig.new
        .Conservative)).daily_starting_sizes := by
  exact ⟨by decide, by decide⟩

/-- C8 (amended): with adaptive sizing enabled, for a pair that is already
initialized and whose daily baseline is fresh (no 24-hour reset due),
adjust_for_market_conditions returns the current size times the volatility,
liquidity and trend factors, re-clamped by apply_position_limits, and
leaves the stored state unchanged: the current position sizes, the trade
history and the daily baselines are identical before and after the call;
on a first access to a pair the call instead initializes the stored
state. -/
theorem adjust_formula_frame (m : PositionScalingManager) (p : TokenPair)
    (cond : MarketCondition) (now : Nat) (c ds ts : Nat)
    (hadapt : m.config.use_adaptive_sizing = true)
    (hc : lookupA m.current_position_sizes p = some c)
    (hd : lookupA m.daily_starting_sizes p = some (ds, ts))
    (hfresh : sub64 now ts ≤ 24 * 60 * 60) :
    m.adjust_for_market_conditions p cond now =
      (m.apply_position_limits p (castU64 ((c : ℚ) *
          volatilityFactor cond.volatility *
          ((cond.liquidity_score : ℚ) / 100) *
          trendFactor cond.trend_direction)), m) ∧
    (m.adjust_for_market_conditions p cond now).2.current_position_sizes =
      m.current_position_sizes ∧
    (m.adjust_for_market_conditions p cond now).2.trade_history =
      m.trade_history ∧
    (m.adjust_for_market_conditions p cond now).2.daily_starting_sizes =
      m.daily_starting_sizes := by
  have hm1 : m.initialize_position_size p now = m := by
    unfold PositionScalingManager.initialize_position_size
    rw [hc]
  have hm2 : m.check_daily_reset p now = m := by
    unfold PositionScalingManager.check_daily_reset
    simp only [hd]
    rw [if_neg (by omega)]
  have hget : m.get_position_size p now = (c, m) := by
    simp only [PositionScalingManager.get_position_size, hm1, hm2, hc,
      Option.getD_some]
  have hmain : m.adjust_for_market_conditions p cond now =
      (m.apply_position_limits p (castU64 ((c : ℚ) *
          volatilityFactor cond.volatility *
          ((cond.liquidity_score : ℚ) / 100) *
          trendFactor cond.trend_direction)), m) := by
    simp only [PositionScalingManager.adjust_for_market_conditions, hadapt,
      Bool.true_eq_false, if_false, hget]
  exact ⟨hmain, by rw [hmain], by rw [hmain], by rw [hmain]⟩

/-- Witness for adjust_formula_frame: an initialized pair under medium
volatility. -/
theorem adjust_formula_frame_witness :
    exampleScalingManager.config.use_adaptive_sizing = true ∧
    sub64 5 0 ≤ 24 * 60 * 60 ∧
    (exampleScalingManager.adjust_for_market_conditions (0, 1)
      { volatility := .Medium, liquidity_score := 80,
        trend_direction := -10, timestamp := 0 } 5 =
      (exampleScalingManager.apply_position_limits (0, 1)
        (castU64 ((100 : ℚ) * volatilityFactor .Medium *
          ((80 : ℚ) / 100) * trendFactor (-10))),
       exampleScalingManager) ∧
    (exampleScalingManager.adjust_for_market_conditions (0, 1)
      { volatility := .Medium, liquidity_score := 80,
        trend_direction := -10,
        timestamp := 0 } 5).2.current_position_sizes =
      exampleScalingManager.current_position_sizes ∧
    (exampleScalingManager.adjust_for_market_conditions (0, 1)
      { volatility := .Medium, liquidity_score := 80,
        trend_direction := -10, timestamp := 0 } 5).2.trade_history =
      exampleScalingManager.trade_history ∧
    (exampleScalingManager.adjust_for_market_conditions (0, 1)
      { volatility := .Medium, liquidity_score := 80,
        trend_direction := -10,
        timestamp := 0 } 5).2.daily_starting_sizes =
      exampleScalingManager.daily_starting_sizes) :=
  ⟨by decide, by decide,
    adjust_formula_frame _ (0, 1)
      { volatility := .Medium, liquidity_score := 80,
        trend_direction := -10, timestamp := 0 } 5 100 100 0
      (by decide) (by decide) (by decide) (by decide)⟩

end RiskMgmt

end SolBitrage
